import Mathlib

/-!
Verification of the PrediccionesPro data pipeline: entity catalog, entity
resolver, historical store (merge / manual insert / bulk backfill), the
frequency/recency analyzer and the scoring engine.

Modelling conventions.
* ISO date strings ("YYYY-MM-DD") are represented by their epoch-millisecond
  timestamps as `Int`; equality and (lexicographic) order of the ISO strings
  agree with equality and order of those integers, and
  `new Date(d).getTime()` is the integer itself.
* JavaScript floating-point numbers are idealised as exact rationals `ℚ`;
  every concrete value appearing in the theorems below is small enough that
  the float computation is exact.
* `Math.floor` of a quotient of millisecond timestamps is `Int.fdiv`.
* `Array.prototype.sort` is stable in JavaScript; it is modelled by
  `List.insertionSort`, which is also stable.
-/

/-- `Animal` record of `types.ts` (the optional `imageUrl` is never set by
the pipeline and is omitted). -/
structure Animal where
  id : String
  name : String
  number : String
  emoji : String
deriving Repr, DecidableEq

/-- The number → animal map embedded in
`realResultsService.findAnimalByNumber` (src/services/realResultsService.ts
lines 283-321), keyed by the two-digit code. -/
def animalMap : List (String × Animal) :=
  [("00", ⟨"00", "Delfín", "00", "🐬"⟩),
   ("01", ⟨"01", "Carnero", "01", "🐏"⟩),
   ("02", ⟨"02", "Toro", "02", "🐂"⟩),
   ("03", ⟨"03", "Ciempiés", "03", "🐛"⟩),
   ("04", ⟨"04", "Alacrán", "04", "🦂"⟩),
   ("05", ⟨"05", "León", "05", "🦁"⟩),
   ("06", ⟨"06", "Rana", "06", "🐸"⟩),
   ("07", ⟨"07", "Perico", "07", "🦜"⟩),
   ("08", ⟨"08", "Ratón", "08", "🐭"⟩),
   ("09", ⟨"09", "Águila", "09", "🦅"⟩),
   ("10", ⟨"10", "Tigre", "10", "🐅"⟩),
   ("11", ⟨"11", "Gato", "11", "🐱"⟩),
   ("12", ⟨"12", "Caballo", "12", "🐴"⟩),
   ("13", ⟨"13", "Mono", "13", "🐵"⟩),
   ("14", ⟨"14", "Paloma", "14", "🕊️"⟩),
   ("15", ⟨"15", "Zorro", "15", "🦊"⟩),
   ("16", ⟨"16", "Oso", "16", "🐻"⟩),
   ("17", ⟨"17", "Pavo", "17", "🦃"⟩),
   ("18", ⟨"18", "Burro", "18", "🫏"⟩),
   ("19", ⟨"19", "Chivo", "19", "🐐"⟩),
   ("20", ⟨"20", "Cochino", "20", "🐷"⟩),
   ("21", ⟨"21", "Gallo", "21", "🐓"⟩),
   ("22", ⟨"22", "Camello", "22", "🐪"⟩),
   ("23", ⟨"23", "Cebra", "23", "🦓"⟩),
   ("24", ⟨"24", "Iguana", "24", "🦎"⟩),
   ("25", ⟨"25", "Gallina", "25", "🐔"⟩),
   ("26", ⟨"26", "Vaca", "26", "🐄"⟩),
   ("27", ⟨"27", "Perro", "27", "🐶"⟩),
   ("28", ⟨"28", "Zamuro", "28", "🦅"⟩),
   ("29", ⟨"29", "Elefante", "29", "🐘"⟩),
   ("30", ⟨"30", "Caimán", "30", "🐊"⟩),
   ("31", ⟨"31", "Lapa", "31", "🦜"⟩),
   ("32", ⟨"32", "Ardilla", "32", "🐿️"⟩),
   ("33", ⟨"33", "Pescado", "33", "🐟"⟩),
   ("34", ⟨"34", "Venado", "34", "🦌"⟩),
   ("35", ⟨"35", "Jirafa", "35", "🦒"⟩),
   ("36", ⟨"36", "Culebra", "36", "🐍"⟩)]

/-- `RealResultsService.findAnimalByNumber`
(src/services/realResultsService.ts lines 281-324): object-literal lookup by
two-digit number, `null` when absent. -/
def findAnimalByNumber (number : String) : Option Animal :=
  (animalMap.find? (fun p => p.1 == number)).map (fun p => p.2)

/-- Modelled from the spec: the static Entity Catalog `ANIMALS`
(`constants.ts`, which is not under `src/`). Per spec §2/§3 it is the fixed
37-entry catalog with unique codes "00".."36"; its entries are taken to be
exactly those of the in-source `findAnimalByNumber` map, which the source
comments say "debería venir de constants.ts". -/
def ANIMALS : List Animal := animalMap.map (fun p => p.2)

/-- `HistoricalResult` of `statisticalAnalysisService.ts` (dates as epoch
milliseconds, see the module conventions). -/
structure HistoricalResult where
  date : Int
  hour : Option String
  animal : Animal
  animalNumber : String
  animalName : String
deriving Repr, DecidableEq

/-- `FrequencyAnalysis` of `statisticalAnalysisService.ts`. -/
structure FrequencyAnalysis where
  animalId : String
  animal : Animal
  totalAppearances : Nat
  totalFrequency : ℚ
  recentAppearances5 : Nat
  recentAppearances10 : Nat
  recentAppearances20 : Nat
  recentFrequency5 : ℚ
  recentFrequency10 : ℚ
  recentFrequency20 : ℚ
  daysSinceLastAppearance : Int
  lastAppearanceDate : Option Int
  isHot : Bool
  isCold : Bool
deriving Repr, DecidableEq

/-- `results.slice(-n)`: the last `min n len` elements of the array. -/
def jsSliceLast (l : List HistoricalResult) (n : Nat) : List HistoricalResult :=
  l.drop (l.length - n)

/-- Number of milliseconds in a day, as in the source expression
`1000 * 60 * 60 * 24`. -/
def msPerDay : Int := 1000 * 60 * 60 * 24

/-- `StatisticalAnalysisService.calculateFrequencyAnalysis`
(src/services/statisticalAnalysisService.ts lines 137-197). `today` is the
wall-clock `new Date()` of the analysis, in epoch milliseconds. -/
def calculateFrequencyAnalysis (today : Int) (results : List HistoricalResult) :
    List FrequencyAnalysis :=
  let totalResults := results.length
  ANIMALS.map (fun animal =>
    let animalResults := results.filter (fun r => r.animal.id == animal.id)
    let totalAppearances := animalResults.length
    let totalFrequency : ℚ :=
      if totalResults > 0 then ((totalAppearances : ℚ) / (totalResults : ℚ)) * 100 else 0
    let recent5 := jsSliceLast results 5
    let recent10 := jsSliceLast results 10
    let recent20 := jsSliceLast results 20
    let recentAppearances5 := (recent5.filter (fun r => r.animal.id == animal.id)).length
    let recentAppearances10 := (recent10.filter (fun r => r.animal.id == animal.id)).length
    let recentAppearances20 := (recent20.filter (fun r => r.animal.id == animal.id)).length
    let recentFrequency5 : ℚ :=
      if recent5.length > 0 then ((recentAppearances5 : ℚ) / (recent5.length : ℚ)) * 100 else 0
    let recentFrequency10 : ℚ :=
      if recent10.length > 0 then ((recentAppearances10 : ℚ) / (recent10.length : ℚ)) * 100 else 0
    let recentFrequency20 : ℚ :=
      if recent20.length > 0 then ((recentAppearances20 : ℚ) / (recent20.length : ℚ)) * 100 else 0
    let lastResult := animalResults.getLast?
    let daysSinceLastAppearance : Int :=
      match lastResult with
      | some r => Int.fdiv (today - r.date) msPerDay
      | none => 999
    let lastAppearanceDate : Option Int :=
      match lastResult with
      | some r => some r.date
      | none => none
    let avgFrequency : ℚ := 100 / (ANIMALS.length : ℚ)
    let isHot := decide (recentFrequency10 > avgFrequency * 1.5)
    let isCold := decide (recentFrequency10 < avgFrequency * 0.5)
    { animalId := animal.id
      animal := animal
      totalAppearances := totalAppearances
      totalFrequency := totalFrequency
      recentAppearances5 := recentAppearances5
      recentAppearances10 := recentAppearances10
      recentAppearances20 := recentAppearances20
      recentFrequency5 := recentFrequency5
      recentFrequency10 := recentFrequency10
      recentFrequency20 := recentFrequency20
      daysSinceLastAppearance := daysSinceLastAppearance
      lastAppearanceDate := lastAppearanceDate
      isHot := isHot
      isCold := isCold })

/-- The configurable scoring weights of `StatisticalAnalysisService`. -/
structure Weights where
  recentFrequency : ℚ
  totalFrequency : ℚ
  daysSinceAppearance : ℚ
deriving Repr, DecidableEq

/-- `StatisticalAnalysisService.DEFAULT_WEIGHTS`. -/
def DEFAULT_WEIGHTS : Weights :=
  { recentFrequency := 0.5, totalFrequency := 0.3, daysSinceAppearance := 0.2 }

/-- Confidence labels of `PredictionScore`. -/
inductive Confidence
  | alta
  | media
  | baja
deriving Repr, DecidableEq

/-- Category tiers of `PredictionScore`. -/
inductive Category
  | hot
  | warm
  | cold
  | frozen
deriving Repr, DecidableEq

/-- `PredictionScore` of `statisticalAnalysisService.ts`. -/
structure PredictionScore where
  animalId : String
  animal : Animal
  score : ℚ
  rank : Nat
  frequencyTotal : ℚ
  frequencyRecent : ℚ
  daysSinceLastAppearance : Int
  category : Category
  explanation : String
  confidence : Confidence
deriving Repr, DecidableEq

/-- `Math.max(...xs)` over the rationals; the source only applies it to the
nonempty per-catalog lists (the empty case, `-Infinity` in JavaScript, is
unreachable). -/
def jsMaxRat : List ℚ → ℚ
  | [] => 0
  | x :: xs => xs.foldl max x

/-- `Math.max(...xs)` over the integers (same remark as `jsMaxRat`). -/
def jsMaxInt : List Int → Int
  | [] => 0
  | x :: xs => xs.foldl max x

/-- `StatisticalAnalysisService.generateExplanation`
(src/services/statisticalAnalysisService.ts lines 279-305). -/
def generateExplanation (analysis : FrequencyAnalysis) : String :=
  let explanations : List String :=
    (if analysis.recentFrequency10 > 15 then ["tendencia reciente alta"]
     else if analysis.recentFrequency10 < 5 then ["tendencia reciente baja"]
     else []) ++
    (if analysis.daysSinceLastAppearance > 30 then ["mucho tiempo sin salir"]
     else if analysis.daysSinceLastAppearance < 7 then ["salió recientemente"]
     else []) ++
    (if analysis.totalFrequency > 4 then ["frecuencia histórica alta"]
     else if analysis.totalFrequency < 2 then ["frecuencia histórica baja"]
     else [])
  if explanations.length = 0 then "comportamiento promedio según análisis histórico"
  else String.intercalate ", " explanations

/-- `StatisticalAnalysisService.determineConfidence`
(src/services/statisticalAnalysisService.ts lines 310-318). -/
def determineConfidence (analysis : FrequencyAnalysis) (score : ℚ) : Confidence :=
  if score > 70 ∧ analysis.totalAppearances > 10 then Confidence.alta
  else if score > 40 ∧ analysis.totalAppearances > 5 then Confidence.media
  else Confidence.baja

/-- `StatisticalAnalysisService.calculatePredictionScores`
(src/services/statisticalAnalysisService.ts lines 202-244). -/
def calculatePredictionScores (frequencyAnalysis : List FrequencyAnalysis)
    (weights : Weights) : List PredictionScore :=
  let maxRecentFreq := jsMaxRat (frequencyAnalysis.map (fun f => f.recentFrequency10))
  let maxTotalFreq := jsMaxRat (frequencyAnalysis.map (fun f => f.totalFrequency))
  let maxDaysSince := jsMaxInt (frequencyAnalysis.map (fun f => f.daysSinceLastAppearance))
  frequencyAnalysis.map (fun analysis =>
    let normalizedRecentFreq : ℚ :=
      if maxRecentFreq > 0 then analysis.recentFrequency10 / maxRecentFreq else 0
    let normalizedTotalFreq : ℚ :=
      if maxTotalFreq > 0 then analysis.totalFrequency / maxTotalFreq else 0
    let normalizedDaysSince : ℚ :=
      if maxDaysSince > 0 then (analysis.daysSinceLastAppearance : ℚ) / (maxDaysSince : ℚ)
      else 0
    let score : ℚ :=
      (normalizedRecentFreq * weights.recentFrequency +
       normalizedTotalFreq * weights.totalFrequency +
       normalizedDaysSince * weights.daysSinceAppearance) * 100
    { animalId := analysis.animalId
      animal := analysis.animal
      score := score
      rank := 0
      frequencyTotal := analysis.totalFrequency
      frequencyRecent := analysis.recentFrequency10
      daysSinceLastAppearance := analysis.daysSinceLastAppearance
      category := Category.warm
      explanation := generateExplanation analysis
      confidence := determineConfidence analysis score })

/-- The rank → category thresholds of
`StatisticalAnalysisService.categorizeAnimals`. -/
def rankCategory (rank : Nat) : Category :=
  if rank ≤ 5 then Category.hot
  else if rank ≤ 15 then Category.warm
  else if rank ≤ 25 then Category.cold
  else Category.frozen

/-- The comparator `(a, b) => b.score - a.score`: `a` may precede `b` iff
`b.score ≤ a.score`. -/
def scoreDescOrder (a b : PredictionScore) : Prop := b.score ≤ a.score

instance : DecidableRel scoreDescOrder := fun a b => by
  unfold scoreDescOrder; infer_instance

/-- `StatisticalAnalysisService.categorizeAnimals`
(src/services/statisticalAnalysisService.ts lines 249-274): stable sort by
score descending, then dense 1-based ranks and rank-threshold categories. -/
def categorizeAnimals (scores : List PredictionScore) : List PredictionScore :=
  let sortedScores := scores.insertionSort scoreDescOrder
  sortedScores.mapIdx (fun index score =>
    let rank := index + 1
    { score with rank := rank, category := rankCategory rank })

/-- The `allAnimals` ranking computed by
`StatisticalAnalysisService.analyzeHistoricalData`
(src/services/statisticalAnalysisService.ts lines 91-132): frequency
analysis, weighted scores, then categorization. -/
def analyzeAllAnimals (today : Int) (historicalResults : List HistoricalResult)
    (weights : Weights) : List PredictionScore :=
  categorizeAnimals
    (calculatePredictionScores (calculateFrequencyAnalysis today historicalResults) weights)

/-- `RealHistoryEntry` of `realResultsService.ts` (dates as epoch
milliseconds; `source` kept as its string value). -/
structure RealHistoryEntry where
  date : Int
  hour : String
  animal : Animal
  animalData : Animal
  number : String
  source : String
  timestamp : Int
deriving Repr, DecidableEq

/-- `DrawResult` of `types.ts` (the fields consumed by the merge are `hour`
and `animal`). -/
structure DrawResult where
  hour : String
  label : String
  animal : Option Animal
  isCompleted : Bool
  isNext : Bool
deriving Repr, DecidableEq

/-- The duplicate test of the live merge path in
`RealResultsService.getHistoricalResults`
(src/services/realResultsService.ts lines 107-111): an existing record
matching on (date, hour, entityId). -/
def existsToday (todayStr : Int) (hour : String) (animalId : String)
    (history : List RealHistoryEntry) : Bool :=
  history.any (fun h => h.date == todayStr && h.hour == hour && h.animal.id == animalId)

/-- One iteration of the `todayResults.draws.forEach` merge loop of
`RealResultsService.getHistoricalResults`
(src/services/realResultsService.ts lines 104-128): skip draws without an
animal or hour, skip (date, hour, entityId) duplicates, otherwise `unshift`
a new entry and count it. `now` is the `Date.now()` insertion timestamp. -/
def mergeStep (todayStr now : Int) (acc : List RealHistoryEntry × Nat)
    (draw : DrawResult) : List RealHistoryEntry × Nat :=
  match draw.animal with
  | none => acc
  | some a =>
    if draw.hour = "" then acc
    else if existsToday todayStr draw.hour a.id acc.1 then acc
    else ({ date := todayStr, hour := draw.hour, animal := a, animalData := a,
            number := a.number, source := "LotoVen", timestamp := now } :: acc.1,
          acc.2 + 1)

/-- The whole merge loop of `RealResultsService.getHistoricalResults`:
returns the updated persistent history and `newEntriesAdded`. -/
def mergeTodayResults (todayStr now : Int) (draws : List DrawResult)
    (history : List RealHistoryEntry) : List RealHistoryEntry × Nat :=
  draws.foldl (mergeStep todayStr now) (history, 0)

/-- `RealResultsService.addManualResult`
(src/services/realResultsService.ts lines 325-361): insert only when no
existing record shares (date, hour) regardless of entity; returns the
boolean result and the resulting persisted history. -/
def addManualResult (date : Int) (hour : String) (animal : Animal) (now : Int)
    (history : List RealHistoryEntry) : Bool × List RealHistoryEntry :=
  if history.any (fun h => h.date == date && h.hour == hour) then
    (false, history)
  else
    (true, { date := date, hour := hour, animal := animal, animalData := animal,
             number := animal.number, source := "Manual", timestamp := now } :: history)

/-- One element of `convertirAFormatoApp`'s output
(src/unnamed/part_009 lines 215-240), as consumed by the bulk backfill. -/
structure ConvertedItem where
  date : Int
  time : String
  lotteryType : String
  animalNumber : String
  animalName : String
  timestamp : Int
deriving Repr, DecidableEq

/-- Accumulator of the bulk backfill loop of
`RealResultsService.loadMassiveHistoricalData`. -/
structure BackfillAcc where
  history : List RealHistoryEntry
  loaded : Nat
  duplicates : Nat
  errors : Nat
deriving Repr, DecidableEq

/-- One iteration of the `for (const item of convertedData)` loop of
`RealResultsService.loadMassiveHistoricalData`
(src/services/realResultsService.ts lines 212-254): skip other lotteries,
count (date, hour, number) duplicates, count unresolvable numbers as
errors, otherwise `push` the new entry and count it as loaded. -/
def backfillStep (targetType : String) (acc : BackfillAcc) (item : ConvertedItem) :
    BackfillAcc :=
  if item.lotteryType ≠ targetType then acc
  else if acc.history.any (fun h =>
      h.date == item.date && h.hour == item.time && h.number == item.animalNumber) then
    { acc with duplicates := acc.duplicates + 1 }
  else
    match findAnimalByNumber item.animalNumber with
    | none => { acc with errors := acc.errors + 1 }
    | some animal =>
      { acc with
        history := acc.history ++
          [{ date := item.date, hour := item.time, animal := animal,
             animalData := animal, number := item.animalNumber,
             source := "LoteriaDehoy", timestamp := item.timestamp }],
        loaded := acc.loaded + 1 }

/-- `String.prototype.toLowerCase` restricted to the characters that occur in
the catalog names and extraction tokens (ASCII letters plus the accented
Spanish uppercase vowels and Ñ/Ü). -/
def jsToLower (c : Char) : Char :=
  if 'A' ≤ c ∧ c ≤ 'Z' then Char.ofNat (c.toNat + 32)
  else if c = 'Á' then 'á'
  else if c = 'É' then 'é'
  else if c = 'Í' then 'í'
  else if c = 'Ó' then 'ó'
  else if c = 'Ú' then 'ú'
  else if c = 'Ñ' then 'ñ'
  else if c = 'Ü' then 'ü'
  else c

/-- `normalize("NFD").replace(/[̀-ͯ]/g, "")` on a lowercased
character: NFD splits an accented letter into its base letter followed by a
combining mark in U+0300..U+036F, which the replace removes. -/
def stripAccent (c : Char) : Char :=
  if c = 'á' then 'a'
  else if c = 'é' then 'e'
  else if c = 'í' then 'i'
  else if c = 'ó' then 'o'
  else if c = 'ú' then 'u'
  else if c = 'ü' then 'u'
  else if c = 'ñ' then 'n'
  else c

/-- The name normalization used throughout
`LotoVenService.findAnimalByNameOrNumber`: lowercase, strip diacritics via
NFD, keep only the letters a-z (`replace(/[^a-z]/g, '')`). -/
def normalizeToken (s : String) : String :=
  String.mk (((s.data.map jsToLower).map stripAccent).filter
    (fun c => 'a' ≤ c ∧ c ≤ 'z'))

/-- `toLowerCase` on a whole string (used by the exact-name comparison,
which does not strip accents). -/
def jsLowerString (s : String) : String := String.mk (s.data.map jsToLower)

/-- Whether a character is a JavaScript regex word character (`\w`). -/
def isWordChar (c : Char) : Bool :=
  ('a' ≤ c ∧ c ≤ 'z') ∨ ('A' ≤ c ∧ c ≤ 'Z') ∨ ('0' ≤ c ∧ c ≤ '9') ∨ c = '_'

/-- The maximal word-character runs of a string, in order (the candidate
match sites of a `\b…\b` regex). -/
def wordRuns (cs : List Char) : List (List Char) :=
  match cs with
  | [] => []
  | c :: rest =>
    match wordRuns rest with
    | [] => if isWordChar c then [[c]] else []
    | run :: runs =>
      if isWordChar c then
        match rest with
        | [] => [[c]]
        | d :: _ => if isWordChar d then (c :: run) :: runs else [c] :: run :: runs
      else run :: runs

/-- `cleanInput.match(/\b(\d{1,2})\b/)`: the first complete word of the
input that consists of one or two digits (digits adjacent to other word
characters have no `\b` boundary, so only whole words can match). -/
def extractNumberToken (s : String) : Option String :=
  ((wordRuns s.data).find? (fun run =>
      decide (run.length = 1 ∨ run.length = 2) &&
      run.all (fun c => '0' ≤ c && c ≤ '9'))).map String.mk

/-- `'5'.padStart(2, '0')` on the extracted digit token. -/
def padStartTwoZero (s : String) : String :=
  if s.length ≥ 2 then s else String.mk ('0' :: s.data)

/-- `a.includes(b)` on JavaScript strings: `b` is a contiguous substring of
`a` (the empty string is a substring of everything). -/
def jsIncludesAux : List Char → List Char → Bool
  | _, [] => true
  | [], _ :: _ => false
  | a :: as, b :: bs => (a == b && jsIncludesAux as bs) || jsIncludesAux as (b :: bs)

/-- `a.includes(b)`; `jsIncludesAux` checks "`b` starts here or later", which
is exactly contiguous-substring containment. -/
def jsIncludes (a b : String) : Bool :=
  match b.data with
  | [] => true
  | _ :: _ => jsIncludesAux a.data b.data

/-- One row update of the Levenshtein matrix of
`LotoVenService.levenshteinDistance` (src/services/lotovenService.ts lines
472-498): given the previous row starting at column `j-1` (`diag` at its
head) and the cell to the left, produce the cells of the current row from
column `j` on. -/
def levRowAux (c2 : Char) : List Char → List Nat → Nat → List Nat
  | [], _, _ => []
  | _ :: _, [], _ => []
  | c1 :: cs, diag :: rest, left =>
    let up := rest.headD 0
    let cell := if c2 = c1 then diag else 1 + min diag (min left up)
    cell :: levRowAux c2 cs rest cell

/-- `LotoVenService.levenshteinDistance`: the dynamic-programming matrix,
computed row by row; row 0 is `0,1,…,len(str1)` and each row starts with its
row index. -/
def levenshteinDistance (str1 str2 : String) : Nat :=
  let s1 := str1.data
  let row0 := List.range (s1.length + 1)
  let lastRow := str2.data.foldl (fun prev c2 =>
    let first := prev.headD 0 + 1
    first :: levRowAux c2 s1 prev first) row0
  lastRow.getLastD 0

/-- Step 5 of `LotoVenService.findAnimalByNameOrNumber`: the edit-distance
fallback. `Infinity` as initial best score is modelled by `none`. -/
def similarityFallback (normalizedInput : String) : Option Animal :=
  (ANIMALS.foldl (fun (best : Option (Animal × Nat)) animal =>
    let normalizedName := normalizeToken animal.name
    let distance := levenshteinDistance normalizedInput normalizedName
    let maxLength := max normalizedInput.length normalizedName.length
    let similarity : ℚ := 1 - (distance : ℚ) / (maxLength : ℚ)
    let beats := match best with
      | none => true
      | some (_, bestScore) => decide (distance < bestScore)
    if similarity > 0.7 ∧ beats = true then some (animal, distance) else best) none).map
    (fun p => p.1)

/-- `String.prototype.trim`: strip leading and trailing whitespace. -/
def jsTrim (s : String) : String :=
  let ws := fun c => c = ' ' || c = '\t' || c = '\n' || c = '\r'
  String.mk (((s.data.dropWhile ws).reverse.dropWhile ws).reverse)

/-- `LotoVenService.findAnimalByNameOrNumber`
(src/services/lotovenService.ts lines 372-467): exact number, exact
lowercase name, normalized exact name, normalized substring containment
either way, then edit-distance fallback. -/
def findAnimalByNameOrNumber (input : String) : Option Animal :=
  let cleanInput := jsTrim input
  if cleanInput.length = 0 then none
  else
    match (extractNumberToken cleanInput).bind (fun tok =>
        let num := padStartTwoZero tok
        ANIMALS.find? (fun a => a.number == num || a.id == num)) with
    | some byNumber => some byNumber
    | none =>
      match ANIMALS.find? (fun a => jsLowerString a.name == jsLowerString cleanInput) with
      | some exactMatch => some exactMatch
      | none =>
        let normalizedInput := normalizeToken cleanInput
        if normalizedInput.length < 2 then none
        else
          match ANIMALS.find? (fun a => normalizeToken a.name == normalizedInput) with
          | some normalizedExact => some normalizedExact
          | none =>
            match ANIMALS.find? (fun a =>
                jsIncludes (normalizeToken a.name) normalizedInput ||
                jsIncludes normalizedInput (normalizeToken a.name)) with
            | some partialMatch => some partialMatch
            | none => similarityFallback normalizedInput

/-- An element of the `draws` list built by `LotoVenService.parseHTML`
(`Partial<DrawResult>` restricted to the fields the parser sets). -/
structure ParsedDraw where
  hour : String
  animal : Option Animal
  isCompleted : Bool
deriving Repr, DecidableEq

/-- The final duplicate elimination of `LotoVenService.parseHTML`
(src/services/lotovenService.ts lines 263-266):
`draws.filter((draw, index, self) => index === self.findIndex(d => d.hour === draw.hour))`,
keeping only the first entry for each hour value. -/
def dedupByHour (draws : List ParsedDraw) : List ParsedDraw :=
  (draws.enum.filter (fun p =>
    draws.findIdx (fun d => d.hour == p.2.hour) == p.1)).map (fun p => p.2)

/-- The ascending-hour comparator
`(a, b) => (a.hour || '').localeCompare(b.hour || '')` of
`LotoVenService.parseHTML`; on the parser's ASCII `"HH:MM"` strings, locale
comparison is plain lexicographic string order. -/
def hourAscOrder (a b : ParsedDraw) : Prop := a.hour ≤ b.hour

instance : DecidableRel hourAscOrder := fun a b => by
  unfold hourAscOrder; infer_instance

/-- The `uniqueDraws` post-processing of `LotoVenService.parseHTML`
(src/services/lotovenService.ts lines 262-267): keep the first draw per
hour, then stable-sort ascending by the hour string. -/
def finalizeDraws (draws : List ParsedDraw) : List ParsedDraw :=
  (dedupByHour draws).insertionSort hourAscOrder

/-! Theorems about the claims. -/

/-- C8: the entity resolver is a pure function of its token and the static
catalog, so it is deterministic; resolving "05" (through either resolver
entry point) returns the catalog entity with code "05" (León), and
resolving "León", "leon" and "LEÓN" all return that same entity. -/
theorem resolver_deterministic_and_diacritic_insensitive :
    findAnimalByNameOrNumber "05" = some ⟨"05", "León", "05", "🦁"⟩ ∧
    findAnimalByNumber "05" = some ⟨"05", "León", "05", "🦁"⟩ ∧
    findAnimalByNameOrNumber "León" = findAnimalByNameOrNumber "05" ∧
    findAnimalByNameOrNumber "leon" = findAnimalByNameOrNumber "05" ∧
    findAnimalByNameOrNumber "LEÓN" = findAnimalByNameOrNumber "05" := by
  refine ⟨by decide, by decide, by decide, by decide, by decide⟩

/-- C1 (failing input): on a history sorted descending by (date, hour) —
León on days 6,5,4,3,2 and Toro on day 1 — the analyzer computes
`recentAppearances5` for León over `results.slice(-5)`, the five OLDEST
records of the descending list, yielding 4, although the five most recent
records (the first five of the descending list) contain León 5 times. -/
theorem recent_window_uses_oldest_records :
    let leon : Animal := ⟨"05", "León", "05", "🦁"⟩
    let toro : Animal := ⟨"02", "Toro", "02", "🐂"⟩
    let h : List HistoricalResult :=
      [⟨518400000, some "09:00", leon, "05", "León"⟩,
       ⟨432000000, some "09:00", leon, "05", "León"⟩,
       ⟨345600000, some "09:00", leon, "05", "León"⟩,
       ⟨259200000, some "09:00", leon, "05", "León"⟩,
       ⟨172800000, some "09:00", leon, "05", "León"⟩,
       ⟨86400000, some "09:00", toro, "02", "Toro"⟩]
    (((calculateFrequencyAnalysis 604800000 h).find?
        (fun f => f.animalId == "05")).map (fun f => f.recentAppearances5) = some 4) ∧
    ((h.take 5).filter (fun r => r.animal.id == "05")).length = 5 := by
  exact ⟨by decide, by decide⟩

/-- C2 (failing input): on the descending history [León@day 2, León@day 1]
with "now" = day 3, the analyzer reads `animalResults[length - 1]`, the
OLDEST matching record: it reports `daysSinceLastAppearance = 2` and
`lastAppearanceDate` = day 1, although the most recent matching record is
the day-2 one, whose floored day distance from "now" is 1. -/
theorem days_since_uses_oldest_appearance :
    let leon : Animal := ⟨"05", "León", "05", "🦁"⟩
    let h : List HistoricalResult :=
      [⟨172800000, some "09:00", leon, "05", "León"⟩,
       ⟨86400000, some "10:00", leon, "05", "León"⟩]
    (((calculateFrequencyAnalysis 259200000 h).find?
        (fun f => f.animalId == "05")).map
        (fun f => (f.daysSinceLastAppearance, f.lastAppearanceDate)) =
      some (2, some 86400000)) ∧
    (h.head?.map (fun r => r.date) = some 172800000) ∧
    Int.fdiv (259200000 - 172800000) msPerDay = 1 ∧ (1 : Int) ≠ 2 := by
  exact ⟨by decide, by decide, by decide, by decide⟩

/-- C5: `addManualResult` inserts and returns true exactly when no existing
record occupies the (date, hour) slot — regardless of which entity the
existing record holds — and otherwise returns false leaving the persisted
history unchanged. -/
theorem manual_insert_exclusive_per_slot (date : Int) (hour : String) (animal : Animal)
    (now : Int) (history : List RealHistoryEntry) :
    ((addManualResult date hour animal now history).1 = true ↔
      ¬ ∃ h ∈ history, h.date = date ∧ h.hour = hour) ∧
    ((∃ h ∈ history, h.date = date ∧ h.hour = hour) →
      addManualResult date hour animal now history = (false, history)) ∧
    ((¬ ∃ h ∈ history, h.date = date ∧ h.hour = hour) →
      addManualResult date hour animal now history =
        (true, { date := date, hour := hour, animal := animal, animalData := animal,
                 number := animal.number, source := "Manual",
                 timestamp := now } :: history)) := by
  have key : (history.any (fun h => h.date == date && h.hour == hour) = true) ↔
      ∃ h ∈ history, h.date = date ∧ h.hour = hour := by
    simp [List.any_eq_true]
  unfold addManualResult
  rcases Classical.em (∃ h ∈ history, h.date = date ∧ h.hour = hour) with hex | hex
  · rw [if_pos (key.mpr hex)]
    exact ⟨iff_of_false Bool.false_ne_true (not_not_intro hex),
      fun _ => rfl, fun hn => absurd hex hn⟩
  · rw [if_neg (fun hb => hex (key.mp hb))]
    exact ⟨iff_of_true rfl hex, fun hc => absurd hc hex, fun _ => rfl⟩

/-- Witness for C5: inserting into an empty history succeeds and prepends
exactly the new manual record. -/
theorem manual_insert_witness :
    addManualResult 0 "09:00" ⟨"05", "León", "05", "🦁"⟩ 7 [] =
      (true, [{ date := 0, hour := "09:00", animal := ⟨"05", "León", "05", "🦁"⟩,
                animalData := ⟨"05", "León", "05", "🦁"⟩, number := "05",
                source := "Manual", timestamp := 7 }]) :=
  (manual_insert_exclusive_per_slot 0 "09:00" ⟨"05", "León", "05", "🦁"⟩ 7 []).2.2
    (by simp)

/-- Helper: one merge step leaves the accumulated history unchanged or
prepends one entry, so an existing (date, hour, entityId) match survives. -/
theorem existsToday_mergeStep_mono (t now : Int) (hr aid : String)
    (acc : List RealHistoryEntry × Nat) (d : DrawResult)
    (hex : existsToday t hr aid acc.1 = true) :
    existsToday t hr aid (mergeStep t now acc d).1 = true := by
  unfold mergeStep
  cases d.animal with
  | none => exact hex
  | some a =>
    by_cases h0 : d.hour = ""
    · simp only [if_pos h0]; exact hex
    · by_cases h1 : existsToday t d.hour a.id acc.1 = true
      · simp only [if_neg h0, if_pos h1]; exact hex
      · simp only [if_neg h0, if_neg h1]
        unfold existsToday at hex ⊢
        simp only [List.any_cons, hex, Bool.or_true]

/-- Helper: an existing (date, hour, entityId) match survives the whole
merge loop. -/
theorem existsToday_merge_mono (t now : Int) (hr aid : String) :
    ∀ (draws : List DrawResult) (acc : List RealHistoryEntry × Nat),
      existsToday t hr aid acc.1 = true →
      existsToday t hr aid (draws.foldl (mergeStep t now) acc).1 = true := by
  intro draws
  induction draws with
  | nil => intro acc hex; exact hex
  | cons d rest ih =>
    intro acc hex
    exact ih (mergeStep t now acc d) (existsToday_mergeStep_mono t now hr aid acc d hex)

/-- Helper: after the merge loop has processed a draw with an animal and a
nonempty hour, the resulting history contains a matching
(today, hour, entityId) record. -/
theorem existsToday_after_merge (t now : Int) :
    ∀ (draws : List DrawResult) (acc : List RealHistoryEntry × Nat)
      (d : DrawResult) (a : Animal), d ∈ draws → d.animal = some a → d.hour ≠ "" →
      existsToday t d.hour a.id (draws.foldl (mergeStep t now) acc).1 = true := by
  intro draws
  induction draws with
  | nil => intro _ _ _ hmem; cases hmem
  | cons e rest ih =>
    intro acc d a hmem ha h0
    rcases List.mem_cons.mp hmem with rfl | hmem2
    · have hstep : existsToday t d.hour a.id (mergeStep t now acc d).1 = true := by
        unfold mergeStep
        rw [ha]
        by_cases h1 : existsToday t d.hour a.id acc.1 = true
        · simp only [if_neg h0, if_pos h1]; exact h1
        · simp only [if_neg h0, if_neg h1]
          unfold existsToday
          simp [List.any_cons]
      simp only [List.foldl_cons]
      exact existsToday_merge_mono t now d.hour a.id rest (mergeStep t now acc d) hstep
    · simp only [List.foldl_cons]
      exact ih (mergeStep t now acc e) d a hmem2 ha h0

/-- Helper: when every valid draw of the batch already has a
(today, hour, entityId) match in the history, the merge loop is the
identity and adds nothing. -/
theorem merge_noop_of_all_matched (t now : Int) :
    ∀ (draws : List DrawResult) (h2 : List RealHistoryEntry),
      (∀ d ∈ draws, ∀ a : Animal, d.animal = some a → d.hour ≠ "" →
        existsToday t d.hour a.id h2 = true) →
      draws.foldl (mergeStep t now) (h2, 0) = (h2, 0) := by
  intro draws
  induction draws with
  | nil => intro h2 _; rfl
  | cons d rest ih =>
    intro h2 hall
    have hstep : mergeStep t now (h2, 0) d = (h2, 0) := by
      unfold mergeStep
      cases hd : d.animal with
      | none => rfl
      | some a =>
        by_cases h0 : d.hour = ""
        · simp only [if_pos h0]
        · have hmatch := hall d (List.mem_cons_self d rest) a hd h0
          simp only [if_neg h0, hmatch, if_true]
    simp only [List.foldl_cons, hstep]
    exact ih h2 (fun d hd => hall d (List.mem_cons_of_mem _ hd))

/-- Helper: the (date, hour, entityId) duplicate test only depends on the
set of records, so it is stable under re-sorting the history. -/
theorem existsToday_perm (t : Int) (hr aid : String) {h1 h2 : List RealHistoryEntry}
    (hp : h2.Perm h1) : existsToday t hr aid h1 = existsToday t hr aid h2 := by
  unfold existsToday
  have key : ∀ b c : Bool, (b = true ↔ c = true) → b = c := by decide
  apply key
  simp only [List.any_eq_true]
  exact ⟨fun ⟨x, hx, hpx⟩ => ⟨x, hp.mem_iff.mpr hx, hpx⟩,
    fun ⟨x, hx, hpx⟩ => ⟨x, hp.mem_iff.mp hx, hpx⟩⟩

/-- C4: merging the same batch of extracted draws a second time — into any
re-sorting of the post-merge history — adds zero entries and returns the
history unchanged; and a single candidate is skipped exactly when an
existing record matches on (date, hour, entityId), being inserted (with
today's date, at the front) otherwise. -/
theorem merge_idempotent_and_dedup_key (t now now2 : Int) (draws : List DrawResult)
    (h h2 : List RealHistoryEntry)
    (hperm : h2.Perm (mergeTodayResults t now draws h).1) :
    mergeTodayResults t now2 draws h2 = (h2, 0) ∧
    ∀ (d : DrawResult) (a : Animal), d.animal = some a →
      mergeTodayResults t now [d] h =
        (if d.hour = "" then (h, 0)
         else if existsToday t d.hour a.id h then (h, 0)
         else ({ date := t, hour := d.hour, animal := a, animalData := a,
                 number := a.number, source := "LotoVen",
                 timestamp := now } :: h, 1)) := by
  constructor
  · unfold mergeTodayResults
    apply merge_noop_of_all_matched
    intro d hd a ha h0
    rw [← existsToday_perm t d.hour a.id hperm]
    exact existsToday_after_merge t now draws (h, 0) d a hd ha h0
  · intro d a ha
    unfold mergeTodayResults mergeStep
    simp only [List.foldl_cons, List.foldl_nil, ha]

/-- Witness for C4: a concrete one-draw batch merged into the empty
history; re-merging it into the merged history adds nothing, and the
single-candidate characterization holds at that draw. -/
theorem merge_idempotent_witness :
    (mergeTodayResults 0 2
      [{ hour := "09:00", label := "09:00", animal := some ⟨"05", "León", "05", "🦁"⟩,
         isCompleted := true, isNext := false }]
      (mergeTodayResults 0 1
        [{ hour := "09:00", label := "09:00", animal := some ⟨"05", "León", "05", "🦁"⟩,
           isCompleted := true, isNext := false }] []).1 =
    ((mergeTodayResults 0 1
        [{ hour := "09:00", label := "09:00", animal := some ⟨"05", "León", "05", "🦁"⟩,
           isCompleted := true, isNext := false }] []).1, 0)) ∧
    (mergeTodayResults 0 1
      [{ hour := "09:00", label := "09:00", animal := some ⟨"05", "León", "05", "🦁"⟩,
         isCompleted := true, isNext := false }] [] =
      (if ("09:00" : String) = "" then ([], 0)
       else if existsToday 0 "09:00" "05" [] then ([], 0)
       else ([{ date := 0, hour := "09:00", animal := ⟨"05", "León", "05", "🦁"⟩,
                animalData := ⟨"05", "León", "05", "🦁"⟩, number := "05",
                source := "LotoVen", timestamp := 1 }], 1))) :=
  ⟨(merge_idempotent_and_dedup_key 0 1 2
    [{ hour := "09:00", label := "09:00", animal := some ⟨"05", "León", "05", "🦁"⟩,
       isCompleted := true, isNext := false }] [] _ (List.Perm.refl _)).1,
   (merge_idempotent_and_dedup_key 0 1 2
    [{ hour := "09:00", label := "09:00", animal := some ⟨"05", "León", "05", "🦁"⟩,
       isCompleted := true, isNext := false }] [] _ (List.Perm.refl _)).2
    { hour := "09:00", label := "09:00", animal := some ⟨"05", "León", "05", "🦁"⟩,
      isCompleted := true, isNext := false } ⟨"05", "León", "05", "🦁"⟩ rfl⟩

/-- Helper: every entry of the embedded number → animal map has its key as
both the animal's id and its number. -/
theorem animalMap_key_id : ∀ p ∈ animalMap, p.2.id = p.1 ∧ p.2.number = p.1 := by
  decide

/-- Helper: a successfully resolved backfill number is the resolved
animal's entity id. -/
theorem findAnimalByNumber_id (n : String) (a : Animal)
    (ha : findAnimalByNumber n = some a) : a.id = n := by
  unfold findAnimalByNumber at ha
  rcases Option.map_eq_some'.mp ha with ⟨p, hfind, hpa⟩
  have hmem := List.mem_of_find?_eq_some hfind
  have hkey := List.find?_some hfind
  simp only [beq_iff_eq] at hkey
  rw [← hpa, (animalMap_key_id p hmem).1, hkey]

/-- C9: a backfill candidate (for the requested lottery) is counted as a
duplicate — and the history left untouched — exactly when the live
extraction merge's duplicate test on (date, hour, entityId) fires against
the persisted history, provided every stored record's `number` field equals
its entity id; moreover the entity id of a resolvable candidate is exactly
its stored number. -/
theorem backfill_dedup_same_key_as_live_merge (targetType : String)
    (acc : BackfillAcc) (item : ConvertedItem)
    (hty : item.lotteryType = targetType)
    (hnum : ∀ e ∈ acc.history, e.number = e.animal.id) :
    (((backfillStep targetType acc item).duplicates = acc.duplicates + 1 ∧
        (backfillStep targetType acc item).history = acc.history) ↔
      existsToday item.date item.time item.animalNumber acc.history = true) ∧
    (∀ a : Animal, findAnimalByNumber item.animalNumber = some a →
      a.id = item.animalNumber) := by
  refine ⟨?_, fun a ha => findAnimalByNumber_id item.animalNumber a ha⟩
  have hb : (acc.history.any (fun h =>
      h.date == item.date && h.hour == item.time && h.number == item.animalNumber) = true) ↔
      existsToday item.date item.time item.animalNumber acc.history = true := by
    unfold existsToday
    simp only [List.any_eq_true]
    constructor
    · rintro ⟨e, he, hp⟩
      refine ⟨e, he, ?_⟩
      simp only [Bool.and_eq_true, beq_iff_eq] at hp ⊢
      exact ⟨hp.1, by rw [← hnum e he]; exact hp.2⟩
    · rintro ⟨e, he, hp⟩
      refine ⟨e, he, ?_⟩
      simp only [Bool.and_eq_true, beq_iff_eq] at hp ⊢
      exact ⟨hp.1, by rw [hnum e he]; exact hp.2⟩
  unfold backfillStep
  rw [if_neg (fun hne => hne hty)]
  by_cases hdup : acc.history.any (fun h =>
      h.date == item.date && h.hour == item.time && h.number == item.animalNumber) = true
  · rw [if_pos hdup]
    exact iff_of_true ⟨rfl, rfl⟩ (hb.mp hdup)
  · rw [if_neg hdup]
    refine iff_of_false ?_ (fun hex => hdup (hb.mpr hex))
    split
    · rintro ⟨hcon, -⟩; simp at hcon
    · rintro ⟨hcon, -⟩; simp at hcon

/-- Witness for C9: on a one-record history whose stored number equals its
entity id, a matching backfill candidate is classified as a duplicate. -/
theorem backfill_dedup_witness :
    (((backfillStep "lotto-activo"
        { history := [{ date := 0, hour := "09:00", animal := ⟨"05", "León", "05", "🦁"⟩,
                        animalData := ⟨"05", "León", "05", "🦁"⟩, number := "05",
                        source := "LotoVen", timestamp := 0 }],
          loaded := 0, duplicates := 0, errors := 0 }
        { date := 0, time := "09:00", lotteryType := "lotto-activo",
          animalNumber := "05", animalName := "León", timestamp := 3 }).duplicates = 0 + 1 ∧
      (backfillStep "lotto-activo"
        { history := [{ date := 0, hour := "09:00", animal := ⟨"05", "León", "05", "🦁"⟩,
                        animalData := ⟨"05", "León", "05", "🦁"⟩, number := "05",
                        source := "LotoVen", timestamp := 0 }],
          loaded := 0, duplicates := 0, errors := 0 }
        { date := 0, time := "09:00", lotteryType := "lotto-activo",
          animalNumber := "05", animalName := "León", timestamp := 3 }).history =
        [{ date := 0, hour := "09:00", animal := ⟨"05", "León", "05", "🦁"⟩,
           animalData := ⟨"05", "León", "05", "🦁"⟩, number := "05",
           source := "LotoVen", timestamp := 0 }]) ∧
      (⟨"05", "León", "05", "🦁"⟩ : Animal).id = "05") :=
  ⟨(backfill_dedup_same_key_as_live_merge "lotto-activo"
    { history := [{ date := 0, hour := "09:00", animal := ⟨"05", "León", "05", "🦁"⟩,
                    animalData := ⟨"05", "León", "05", "🦁"⟩, number := "05",
                    source := "LotoVen", timestamp := 0 }],
      loaded := 0, duplicates := 0, errors := 0 }
    { date := 0, time := "09:00", lotteryType := "lotto-activo",
      animalNumber := "05", animalName := "León", timestamp := 3 }
    rfl (by decide)).1.mpr (by decide),
   (backfill_dedup_same_key_as_live_merge "lotto-activo"
    { history := [{ date := 0, hour := "09:00", animal := ⟨"05", "León", "05", "🦁"⟩,
                    animalData := ⟨"05", "León", "05", "🦁"⟩, number := "05",
                    source := "LotoVen", timestamp := 0 }],
      loaded := 0, duplicates := 0, errors := 0 }
    { date := 0, time := "09:00", lotteryType := "lotto-activo",
      animalNumber := "05", animalName := "León", timestamp := 3 }
    rfl (by decide)).2 ⟨"05", "León", "05", "🦁"⟩ (by decide)⟩

/-- Helper: a map whose function is constant on the list is a replicate. -/
theorem map_eq_replicate_of_forall {α β : Type} (l : List α) (g : α → β) (c : β)
    (h : ∀ x ∈ l, g x = c) : l.map g = List.replicate l.length c := by
  induction l with
  | nil => rfl
  | cons x xs ih =>
    simp only [List.map_cons, List.length_cons, List.replicate_succ,
      h x (List.mem_cons_self x xs)]
    rw [ih (fun y hy => h y (List.mem_cons_of_mem x hy))]

/-- Helper: the categorization step assigns the dense 1-based ranks
1..N in output order. -/
theorem categorizeAnimals_rank_map (scores : List PredictionScore) :
    (categorizeAnimals scores).map (fun s => s.rank) = List.range' 1 scores.length := by
  unfold categorizeAnimals
  rw [List.mapIdx_eq_enum_map, List.map_map]
  have hfun : ((fun s => s.rank) ∘ Function.uncurry fun index score =>
      { score with rank := index + 1, category := rankCategory (index + 1) }) =
      fun p : ℕ × PredictionScore => p.1 + 1 := rfl
  rw [hfun]
  have hsplit : (fun p : ℕ × PredictionScore => p.1 + 1) =
      (fun i => i + 1) ∘ Prod.fst := rfl
  rw [hsplit, ← List.map_map, List.enum_map_fst, List.range'_eq_map_range]
  have hlen : (scores.insertionSort scoreDescOrder).length = scores.length :=
    (List.perm_insertionSort scoreDescOrder scores).length_eq
  rw [hlen]
  exact List.map_congr_left (fun i _ => by omega)

/-- C6: for every list of scored entities, the scoring engine's ranks are
exactly 1..N in order (dense, no gaps or repeats), each entity's category
is the pure rank function (≤5 hot, ≤15 warm, ≤25 cold, else frozen), and in
particular rank 1 maps to hot and rank 37 to frozen. -/
theorem ranks_dense_and_category_is_rank_function (scores : List PredictionScore) :
    (categorizeAnimals scores).map (fun s => s.rank) = List.range' 1 scores.length ∧
    (categorizeAnimals scores).map (fun s => s.category) =
      (categorizeAnimals scores).map (fun s => rankCategory s.rank) ∧
    rankCategory 1 = Category.hot ∧ rankCategory 37 = Category.frozen := by
  refine ⟨categorizeAnimals_rank_map scores, ?_, rfl, rfl⟩
  · unfold categorizeAnimals
    rw [List.mapIdx_eq_enum_map, List.map_map, List.map_map]
    exact List.map_congr_left (fun p _ => rfl)

/-- Helper: list sums split over pointwise sums. -/
theorem sum_map_add_nat {α : Type} (l : List α) (f g : α → ℕ) :
    (l.map (fun a => f a + g a)).sum = (l.map f).sum + (l.map g).sum := by
  induction l with
  | nil => rfl
  | cons x xs ih => simp only [List.map_cons, List.sum_cons, ih]; omega

/-- Helper: summing an indicator over a list counts the satisfying
elements. -/
theorem sum_map_ite_eq_countP {α : Type} (l : List α) (p : α → Bool) :
    (l.map (fun a => if p a then 1 else 0)).sum = l.countP p := by
  induction l with
  | nil => rfl
  | cons x xs ih =>
    simp only [List.map_cons, List.sum_cons, List.countP_cons, ih]
    by_cases hp : p x = true
    · simp [hp]; omega
    · simp [hp]

/-- Helper: each catalog entity id occurs exactly once among the catalog
match predicates. -/
theorem countP_catalog_eq_one :
    ∀ x ∈ ANIMALS.map (fun a => a.id),
      ANIMALS.countP (fun a => x == a.id) = 1 := by decide

/-- C7: for any history whose records reference catalog entities, the sum
over all catalog entities of the analyzer's `totalAppearances` equals the
length of the history. -/
theorem frequency_sum_invariant (today : Int) (results : List HistoricalResult)
    (hcat : ∀ r ∈ results, r.animal.id ∈ ANIMALS.map (fun a => a.id)) :
    ((calculateFrequencyAnalysis today results).map
      (fun f => f.totalAppearances)).sum = results.length := by
  unfold calculateFrequencyAnalysis
  rw [List.map_map]
  have key : ∀ (rs : List HistoricalResult),
      (∀ r ∈ rs, r.animal.id ∈ ANIMALS.map (fun a => a.id)) →
      (ANIMALS.map (fun animal =>
        (rs.filter (fun r => r.animal.id == animal.id)).length)).sum = rs.length := by
    intro rs
    induction rs with
    | nil => intro _; simp
    | cons r rest ih =>
      intro hmem
      have hsplit : ∀ animal : Animal,
          ((r :: rest).filter (fun x => x.animal.id == animal.id)).length =
          (rest.filter (fun x => x.animal.id == animal.id)).length +
            (if r.animal.id == animal.id then 1 else 0) := by
        intro animal
        rw [List.filter_cons]
        by_cases hr : (r.animal.id == animal.id) = true
        · simp [hr]
        · simp [hr]
      calc (ANIMALS.map (fun animal =>
              ((r :: rest).filter (fun x => x.animal.id == animal.id)).length)).sum
          = (ANIMALS.map (fun animal =>
              (rest.filter (fun x => x.animal.id == animal.id)).length +
                (if r.animal.id == animal.id then 1 else 0))).sum := by
            exact congrArg List.sum (List.map_congr_left (fun animal _ => hsplit animal))
        _ = (ANIMALS.map (fun animal =>
              (rest.filter (fun x => x.animal.id == animal.id)).length)).sum +
            (ANIMALS.map (fun animal =>
              if r.animal.id == animal.id then 1 else 0)).sum :=
            sum_map_add_nat ANIMALS _ _
        _ = rest.length + 1 := by
            rw [ih (fun x hx => hmem x (List.mem_cons_of_mem r hx)),
              sum_map_ite_eq_countP,
              countP_catalog_eq_one r.animal.id (hmem r (List.mem_cons_self r rest))]
        _ = (r :: rest).length := by simp
  exact key results hcat

/-- Witness for C7: a two-record history (León, Toro) of catalog entities
sums to length 2. -/
theorem frequency_sum_witness :
    ((calculateFrequencyAnalysis 259200000
      [⟨172800000, some "09:00", ⟨"05", "León", "05", "🦁"⟩, "05", "León"⟩,
       ⟨86400000, some "10:00", ⟨"02", "Toro", "02", "🐂"⟩, "02", "Toro"⟩]).map
      (fun f => f.totalAppearances)).sum = 2 :=
  frequency_sum_invariant 259200000
    [⟨172800000, some "09:00", ⟨"05", "León", "05", "🦁"⟩, "05", "León"⟩,
     ⟨86400000, some "10:00", ⟨"02", "Toro", "02", "🐂"⟩, "02", "Toro"⟩]
    (by decide)

/-- Helper: a stable sort leaves a list unchanged when every ordered pair
of its elements is already related (for example, all-equal sort keys). -/
theorem insertionSort_eq_self_of_rel {α : Type} (r : α → α → Prop) [DecidableRel r] :
    ∀ l : List α, (∀ a ∈ l, ∀ b ∈ l, r a b) → l.insertionSort r = l := by
  intro l
  induction l with
  | nil => intro _; rfl
  | cons x xs ih =>
    intro h
    have hxs : xs.insertionSort r = xs :=
      ih (fun a ha b hb => h a (List.mem_cons_of_mem x ha) b (List.mem_cons_of_mem x hb))
    rw [List.insertionSort, hxs]
    cases xs with
    | nil => rfl
    | cons y ys =>
      rw [List.orderedInsert,
        if_pos (h x (List.mem_cons_self x (y :: ys)) y
          (List.mem_cons_of_mem x (List.mem_cons_self y ys)))]

/-- Helper: folding `max` over copies of the seed returns the seed. -/
theorem foldl_max_replicate {α : Type} [LinearOrder α] (c : α) :
    ∀ n : ℕ, (List.replicate n c).foldl max c = c := by
  intro n
  induction n with
  | zero => rfl
  | succ m ih => rw [List.replicate_succ, List.foldl_cons, max_self]; exact ih

/-- Helper: `Math.max` over identical values is that value (ℚ case). -/
theorem jsMaxRat_replicate (c : ℚ) (n : ℕ) : jsMaxRat (List.replicate (n + 1) c) = c := by
  rw [List.replicate_succ]; exact foldl_max_replicate c n

/-- Helper: `Math.max` over identical values is that value (ℤ case). -/
theorem jsMaxInt_replicate (c : ℤ) (n : ℕ) : jsMaxInt (List.replicate (n + 1) c) = c := by
  rw [List.replicate_succ]; exact foldl_max_replicate c n

/-- Helper: the categorization step only rewrites `rank` and `category`, so
on an already-sorted input any other projection passes through. -/
theorem categorizeAnimals_map_proj {β : Type} (scores : List PredictionScore)
    (hs : scores.insertionSort scoreDescOrder = scores) (g : PredictionScore → β)
    (hg : ∀ (i : ℕ) (s : PredictionScore),
      g { s with rank := i + 1, category := rankCategory (i + 1) } = g s) :
    (categorizeAnimals scores).map g = scores.map g := by
  unfold categorizeAnimals
  rw [hs, List.mapIdx_eq_enum_map, List.map_map]
  have h1 : (g ∘ Function.uncurry fun index score =>
      { score with rank := index + 1, category := rankCategory (index + 1) }) =
      (g ∘ Prod.snd) := by
    funext p
    exact hg p.1 p.2
  rw [h1, ← List.map_map, List.enum_map_snd]

/-- Helper: the scoring step preserves each entity's id, in order. -/
theorem calculatePredictionScores_animalId (fa : List FrequencyAnalysis) (w : Weights) :
    (calculatePredictionScores fa w).map (fun s => s.animalId) =
      fa.map (fun f => f.animalId) := by
  unfold calculatePredictionScores
  rw [List.map_map]
  exact List.map_congr_left (fun f _ => rfl)

/-- Helper: the analyzer emits one snapshot per catalog entity, in catalog
order, carrying that entity's id. -/
theorem calculateFrequencyAnalysis_animalId (today : Int) (rs : List HistoricalResult) :
    (calculateFrequencyAnalysis today rs).map (fun f => f.animalId) =
      ANIMALS.map (fun a => a.id) := by
  unfold calculateFrequencyAnalysis
  rw [List.map_map]
  exact List.map_congr_left (fun a _ => rfl)

/-- Helper: on the empty history every entity's weighted score under the
default weights is 20: all frequency signals are 0 and the 999-day absence
sentinel normalizes to 1, contributing 0.2 × 100. -/
theorem empty_history_scores (today : Int) :
    (calculatePredictionScores (calculateFrequencyAnalysis today []) DEFAULT_WEIGHTS).map
      (fun s => s.score) = List.replicate 37 20 := by
  have e1 : (calculateFrequencyAnalysis today []).map (fun f => f.recentFrequency10) =
      List.replicate 37 (0 : ℚ) := by
    unfold calculateFrequencyAnalysis
    rw [List.map_map]
    exact map_eq_replicate_of_forall ANIMALS _ _ (fun a _ => rfl)
  have e2 : (calculateFrequencyAnalysis today []).map (fun f => f.totalFrequency) =
      List.replicate 37 (0 : ℚ) := by
    unfold calculateFrequencyAnalysis
    rw [List.map_map]
    exact map_eq_replicate_of_forall ANIMALS _ _ (fun a _ => rfl)
  have e3 : (calculateFrequencyAnalysis today []).map (fun f => f.daysSinceLastAppearance) =
      List.replicate 37 (999 : ℤ) := by
    unfold calculateFrequencyAnalysis
    rw [List.map_map]
    exact map_eq_replicate_of_forall ANIMALS _ _ (fun a _ => rfl)
  unfold calculatePredictionScores
  simp only [e1, e2, e3]
  rw [show (37 : ℕ) = 36 + 1 from rfl, jsMaxRat_replicate, jsMaxInt_replicate,
    List.map_map]
  unfold calculateFrequencyAnalysis
  rw [List.map_map]
  exact map_eq_replicate_of_forall ANIMALS _ _ (fun a _ => by
    norm_num [DEFAULT_WEIGHTS, jsSliceLast])

/-- Helper: on the empty history the final ranking still carries score 20
for every entity (the categorization step does not alter scores). -/
theorem empty_history_allAnimals_scores (today : Int) :
    (analyzeAllAnimals today [] DEFAULT_WEIGHTS).map (fun s => s.score) =
      List.replicate 37 20 := by
  have hps := empty_history_scores today
  have hall : ∀ s ∈ calculatePredictionScores (calculateFrequencyAnalysis today [])
      DEFAULT_WEIGHTS, s.score = 20 := by
    intro s hs
    have hmem : s.score ∈ (calculatePredictionScores (calculateFrequencyAnalysis today [])
        DEFAULT_WEIGHTS).map (fun s => s.score) := List.mem_map_of_mem _ hs
    rw [hps] at hmem
    exact List.eq_of_mem_replicate hmem
  have hsort : (calculatePredictionScores (calculateFrequencyAnalysis today [])
      DEFAULT_WEIGHTS).insertionSort scoreDescOrder =
      calculatePredictionScores (calculateFrequencyAnalysis today []) DEFAULT_WEIGHTS :=
    insertionSort_eq_self_of_rel scoreDescOrder _
      (fun a ha b hb => by unfold scoreDescOrder; rw [hall a ha, hall b hb])
  unfold analyzeAllAnimals
  rw [categorizeAnimals_map_proj _ hsort (fun s => s.score) (fun i s => rfl), hps]

/-- C3 (counterexample): on the empty history the first entity's score is
20, not 0 as the claim states. -/
theorem empty_history_score_not_zero :
    ((analyzeAllAnimals 0 [] DEFAULT_WEIGHTS).map (fun s => s.score)).head? = some 20 ∧
    (20 : ℚ) ≠ 0 := by
  refine ⟨?_, by norm_num⟩
  rw [empty_history_allAnimals_scores 0]
  rfl

/-- C3 (amended): on an empty history the analysis covers the full
37-entity catalog with all frequency counts and percentages zero,
daysSinceLastAppearance = 999 for every entity, every entity's score equal
to 20 under the default weights (the 999-day sentinel normalizes to 1 and
contributes the absence weight 0.2 × 100), and a dense 1..37 ranking in
catalog iteration order, all without failing. -/
theorem empty_history_full_catalog_ranking (today : Int) :
    (calculateFrequencyAnalysis today []).map (fun f => f.totalAppearances) =
      List.replicate 37 0 ∧
    (calculateFrequencyAnalysis today []).map (fun f => f.totalFrequency) =
      List.replicate 37 (0 : ℚ) ∧
    (calculateFrequencyAnalysis today []).map (fun f =>
      (f.recentAppearances5, f.recentAppearances10, f.recentAppearances20)) =
      List.replicate 37 (0, 0, 0) ∧
    (calculateFrequencyAnalysis today []).map (fun f =>
      (f.recentFrequency5, f.recentFrequency10, f.recentFrequency20)) =
      List.replicate 37 ((0 : ℚ), (0 : ℚ), (0 : ℚ)) ∧
    (calculateFrequencyAnalysis today []).map (fun f => f.daysSinceLastAppearance) =
      List.replicate 37 (999 : ℤ) ∧
    (analyzeAllAnimals today [] DEFAULT_WEIGHTS).map (fun s => s.score) =
      List.replicate 37 20 ∧
    (analyzeAllAnimals today [] DEFAULT_WEIGHTS).map (fun s => s.rank) =
      List.range' 1 37 ∧
    (analyzeAllAnimals today [] DEFAULT_WEIGHTS).map (fun s => s.animalId) =
      ANIMALS.map (fun a => a.id) := by
  have hps := empty_history_scores today
  have hall : ∀ s ∈ calculatePredictionScores (calculateFrequencyAnalysis today [])
      DEFAULT_WEIGHTS, s.score = 20 := by
    intro s hs
    have hmem : s.score ∈ (calculatePredictionScores (calculateFrequencyAnalysis today [])
        DEFAULT_WEIGHTS).map (fun s => s.score) := List.mem_map_of_mem _ hs
    rw [hps] at hmem
    exact List.eq_of_mem_replicate hmem
  have hsort : (calculatePredictionScores (calculateFrequencyAnalysis today [])
      DEFAULT_WEIGHTS).insertionSort scoreDescOrder =
      calculatePredictionScores (calculateFrequencyAnalysis today []) DEFAULT_WEIGHTS :=
    insertionSort_eq_self_of_rel scoreDescOrder _
      (fun a ha b hb => by unfold scoreDescOrder; rw [hall a ha, hall b hb])
  have hlenPS : (calculatePredictionScores (calculateFrequencyAnalysis today [])
      DEFAULT_WEIGHTS).length = 37 := by
    have h := congrArg List.length hps
    simpa using h
  refine ⟨?_, ?_, ?_, ?_, ?_, empty_history_allAnimals_scores today, ?_, ?_⟩
  · unfold calculateFrequencyAnalysis
    rw [List.map_map]
    exact map_eq_replicate_of_forall ANIMALS _ _ (fun a _ => rfl)
  · unfold calculateFrequencyAnalysis
    rw [List.map_map]
    exact map_eq_replicate_of_forall ANIMALS _ _ (fun a _ => rfl)
  · unfold calculateFrequencyAnalysis
    rw [List.map_map]
    exact map_eq_replicate_of_forall ANIMALS _ _ (fun a _ => rfl)
  · unfold calculateFrequencyAnalysis
    rw [List.map_map]
    exact map_eq_replicate_of_forall ANIMALS _ _ (fun a _ => rfl)
  · unfold calculateFrequencyAnalysis
    rw [List.map_map]
    exact map_eq_replicate_of_forall ANIMALS _ _ (fun a _ => rfl)
  · unfold analyzeAllAnimals
    rw [categorizeAnimals_rank_map, hlenPS]
  · unfold analyzeAllAnimals
    rw [categorizeAnimals_map_proj _ hsort (fun s => s.animalId) (fun i s => rfl),
      calculatePredictionScores_animalId, calculateFrequencyAnalysis_animalId]

/-- Helper: `find?` returns the element sitting at the `findIdx` position. -/
theorem find?_eq_of_findIdx {α : Type} (p : α → Bool) :
    ∀ (l : List α) (i : ℕ) (a : α), l[i]? = some a → l.findIdx p = i →
      l.find? p = some a := by
  intro l
  induction l with
  | nil => intro i a hget _; simp at hget
  | cons x xs ih =>
    intro i a hget hidx
    rw [List.findIdx_cons] at hidx
    by_cases hp : p x = true
    · rw [hp, cond_true] at hidx
      subst hidx
      simp only [List.getElem?_cons_zero, Option.some.injEq] at hget
      rw [List.find?_cons, hp, hget]
    · rw [Bool.not_eq_true] at hp
      rw [hp, cond_false] at hidx
      cases i with
      | zero => omega
      | succ j =>
        have hj : xs.findIdx p = j := by omega
        have hget' : xs[j]? = some a := by simpa using hget
        rw [List.find?_cons, hp]
        exact ih j a hget' hj

/-- Helper: the indices in an enumerated list are pairwise distinct. -/
theorem enum_fst_pairwise {α : Type} (l : List α) :
    List.Pairwise (fun p q : ℕ × α => p.1 ≠ q.1) l.enum := by
  have h := List.nodup_range l.length
  rw [← List.enum_map_fst l] at h
  exact List.pairwise_map.mp h

/-- Helper: the parser's first-occurrence filter leaves at most one draw
per hour value. -/
theorem dedupByHour_nodup_hours (draws : List ParsedDraw) :
    ((dedupByHour draws).map (fun d => d.hour)).Nodup := by
  unfold dedupByHour
  rw [List.map_map]
  have hfst : List.Pairwise (fun p q : ℕ × ParsedDraw => p.1 ≠ q.1)
      (draws.enum.filter (fun p =>
        draws.findIdx (fun d => d.hour == p.2.hour) == p.1)) :=
    List.Pairwise.sublist (List.filter_sublist _) (enum_fst_pairwise draws)
  refine List.pairwise_map.mpr (hfst.imp_of_mem ?_)
  intro p q hp hq hne hhour
  simp only [Function.comp_apply] at hhour
  apply hne
  have hp2 : draws.findIdx (fun d => d.hour == p.2.hour) = p.1 :=
    beq_iff_eq.mp (List.mem_filter.mp hp).2
  have hq2 : draws.findIdx (fun d => d.hour == q.2.hour) = q.1 :=
    beq_iff_eq.mp (List.mem_filter.mp hq).2
  rw [hhour] at hp2
  exact hp2.symm.trans hq2

/-- Helper: every draw surviving the first-occurrence filter is the first
draw of the parse list bearing its hour. -/
theorem dedupByHour_first_occurrence (draws : List ParsedDraw) :
    ∀ d ∈ dedupByHour draws, draws.find? (fun x => x.hour == d.hour) = some d := by
  intro d hd
  unfold dedupByHour at hd
  rcases List.mem_map.mp hd with ⟨p, hpmem, hpd⟩
  have hfil := List.mem_filter.mp hpmem
  have henum : draws[p.1]? = some p.2 := List.mem_enum_iff_getElem?.mp hfil.1
  have hidx : draws.findIdx (fun x => x.hour == p.2.hour) = p.1 :=
    beq_iff_eq.mp hfil.2
  subst hpd
  exact find?_eq_of_findIdx _ draws p.1 p.2 henum hidx

instance : IsTotal ParsedDraw hourAscOrder := ⟨fun a b => le_total a.hour b.hour⟩

instance : IsTrans ParsedDraw hourAscOrder := ⟨fun _ _ _ hab hbc => le_trans hab hbc⟩

/-- C10: for every parsed draws list (hence for every HTML input), the
extractor's final output has at most one entry per hour value — when two
entities share an hour only the first parsed one survives, each output
entry being the first parse-order draw of its hour — and is sorted
ascending by the hour string. -/
theorem parser_unique_hours_sorted_ascending (draws : List ParsedDraw) :
    ((finalizeDraws draws).map (fun d => d.hour)).Nodup ∧
    List.Pairwise hourAscOrder (finalizeDraws draws) ∧
    (finalizeDraws draws).map (fun d => draws.find? (fun x => x.hour == d.hour)) =
      (finalizeDraws draws).map some := by
  have hperm : (finalizeDraws draws).Perm (dedupByHour draws) := by
    unfold finalizeDraws
    exact List.perm_insertionSort _ _
  refine ⟨?_, ?_, ?_⟩
  · exact ((hperm.map (fun d => d.hour)).nodup_iff).mpr (dedupByHour_nodup_hours draws)
  · exact List.sorted_insertionSort hourAscOrder _
  · refine List.map_congr_left ?_
    intro d hd
    rw [dedupByHour_first_occurrence draws d (hperm.mem_iff.mp hd)]
